import Mathlib

/-!
# Verification of the clickstracker event store and rules engine

Shallow embedding of the core of the `clickstracker` repository: the SQLite
event store (`backend/database.js`) and the rules engine
(`backend/rules-engine.js`), together with proofs about the five UX-issue
detectors, the metrics aggregator, batch insertion and threshold updates.

Conventions of the embedding:
* The `events` table is a `List Event` in insertion order (the `id` column is
  the list position and is never consulted by any query modelled here).
* SQL `GROUP BY` is modelled as deduplicating the list of group keys and
  aggregating over the sub-list of rows carrying each key.  `ORDER BY`
  clauses are not modelled: every verified property is about which rows are
  produced, none is about their order.
* SQL numeric expressions (`* 1.0` divisions, threshold comparisons) are
  modelled over `ℚ`; counts are `ℕ` cast into `ℚ` where the SQL compares
  them against a threshold parameter.
* SQLite `LIKE 'tag%'` with the default `case_sensitive_like = OFF` pragma is
  ASCII-case-insensitive; it is modelled as a case-folding prefix test on the
  character list (none of the fixed patterns contains a `%` or `_` wildcard
  except the trailing `%`).
-/

/-- One row of the `events` table (`backend/database.js`, `createTables`).
`elementSelector`, `clickX`, `clickY`, `scrollDepth` are nullable columns.
The `created_at` column (server receipt time) is used only by the
`recentActivity` metrics query, which is outside the verified claims, so it
is not carried here. -/
structure Event where
  sessionId : String
  pageUrl : String
  eventType : String
  elementSelector : Option String
  clickX : Option Int
  clickY : Option Int
  scrollDepth : Option Int
  timestamp : Int
deriving DecidableEq

/-- `Database.insertEvents` (`backend/database.js`).  The JS wraps the row
inserts in `BEGIN TRANSACTION` … `COMMIT`, but attaches no error callback to
the per-row `stmt.run` calls and never issues a `ROLLBACK`.  Under SQLite's
default `ABORT` conflict resolution a failing `INSERT` backs out only that
one statement; the remaining queued statements and the `COMMIT` still
execute.  The embedding therefore takes, for each event of the batch, the
outcome of its row insert (`true` = the row write succeeded), plus the
outcome of the final `COMMIT`; rows whose insert failed are silently
dropped, and the promise resolves (`true`) exactly when the `COMMIT`
callback reports no error. -/
def insertEvents (st : List Event) (batch : List (Event × Bool)) (commitOk : Bool) :
    List Event × Bool :=
  let appended := st ++ (batch.filter (fun p => p.2)).map (fun p => p.1)
  if commitOk then (appended, true) else (st, false)

/-- An example click event used in concrete evaluations. -/
def evClick (s page sel : String) (t : Int) : Event :=
  { sessionId := s, pageUrl := page, eventType := "click",
    elementSelector := some sel, clickX := some 0, clickY := some 0,
    scrollDepth := none, timestamp := t }

/-- An example scroll event used in concrete evaluations. -/
def evScroll (s page : String) (depth : Int) (t : Int) : Event :=
  { sessionId := s, pageUrl := page, eventType := "scroll",
    elementSelector := none, clickX := none, clickY := none,
    scrollDepth := some depth, timestamp := t }

/-- C1: `insertBatch` atomicity.  The claim states that when the underlying
write fails on any row of an N-event batch, the whole operation fails and a
subsequent read observes none of the N events — never a strict non-empty
subset.  Evaluating the embedded `insertEvents` at a 2-event batch whose
second row insert fails (e.g. a `NOT NULL` constraint violation) while the
`COMMIT` succeeds: the call reports success and exactly 1 of the 2 events is
visible to subsequent reads, contradicting the claim.  The `BEGIN
TRANSACTION` wrapper shows all-or-nothing persistence was the intent, so
this is a defect of the code, not of the specification. -/
theorem insertEvents_commits_strict_subset_on_row_failure :
    insertEvents [] [(evClick "s1" "/p" "a.x" 0, true), (evClick "s1" "/p" "a.y" 1, false)] true
      = ([evClick "s1" "/p" "a.x" 0], true) ∧
    (insertEvents [] [(evClick "s1" "/p" "a.x" 0, true), (evClick "s1" "/p" "a.y" 1, false)] true).1.length = 1 ∧
    1 < 2 := by
  refine ⟨rfl, rfl, by decide⟩

/-! ## Shared query building blocks -/

/-- `COUNT(DISTINCT session_id)` over a list of events. -/
def distinctSessions (l : List Event) : Nat :=
  ((l.map (fun e => e.sessionId)).dedup).length

/-- The `WHERE event_type = 'click' AND element_selector IS NOT NULL`
candidate filter shared by the click-based queries. -/
def isClickSel (e : Event) : Bool :=
  e.eventType == "click" && e.elementSelector.isSome

/-! ## Low Click Rate (`RulesEngine.analyzeLowClickRate`) -/

/-- The `page_session_counts` CTE: distinct sessions per page over ALL
events. -/
def pageSessions (st : List Event) (page : String) : Nat :=
  distinctSessions (st.filter (fun e => e.pageUrl == page))

/-- The row filter of the low-click-rate query:
`event_type = 'click' AND element_selector IS NOT NULL AND element_selector != ''`. -/
def isClickNonEmptySel (e : Event) : Bool :=
  e.eventType == "click" &&
    (match e.elementSelector with
     | some s => s != ""
     | none => false)

/-- Click events on a given `(selector, page)` group of the low-click-rate
query. -/
def clickGroup (st : List Event) (page sel : String) : List Event :=
  st.filter (fun e => isClickNonEmptySel e && e.elementSelector == some sel && e.pageUrl == page)

/-- One output row of the low-click-rate query. -/
structure LCRRow where
  elementSelector : String
  pageUrl : String
  clicks : Nat
  uniqueSessions : Nat
  pageSessionsCount : Nat
  clickRate : ℚ
deriving DecidableEq

/-- The SQL of `analyzeLowClickRate`: group the filtered click events by
`(element_selector, page_url)`, join the per-page distinct-session count,
and keep groups `HAVING page_sessions >= minPageViews AND
COUNT(DISTINCT session_id) * 1.0 / page_sessions < minClickRate`. -/
def lowClickRateRows (st : List Event) (minClickRate minPageViews : ℚ) : List LCRRow :=
  let cands := st.filter isClickNonEmptySel
  ((cands.map (fun e => (e.elementSelector.getD "", e.pageUrl))).dedup).filterMap
    (fun k =>
      let grp := clickGroup st k.2 k.1
      let ps := pageSessions st k.2
      let us := distinctSessions grp
      if minPageViews ≤ (ps : ℚ) ∧ (us : ℚ) / (ps : ℚ) < minClickRate then
        some ⟨k.1, k.2, grp.length, us, ps, (us : ℚ) / (ps : ℚ)⟩
      else none)

/-! ## Low Scroll Depth (`RulesEngine.analyzeLowScrollDepth`) -/

/-- Scroll events with a non-null depth on a page. -/
def scrollGroup (st : List Event) (page : String) : List Event :=
  st.filter (fun e => e.eventType == "scroll" && e.scrollDepth.isSome && e.pageUrl == page)

/-- `AVG(CAST(scroll_depth AS FLOAT))` over a group, as an exact rational. -/
def avgScrollDepth (l : List Event) : ℚ :=
  ((l.map (fun e => ((e.scrollDepth.getD 0 : Int) : ℚ))).sum) / (l.length : ℚ)

/-- One output row of the low-scroll-depth query. -/
structure LSDRow where
  pageUrl : String
  sessions : Nat
  avgDepth : ℚ
  maxDepth : Int
deriving DecidableEq

/-- `MAX(scroll_depth)` over a group (groups are non-empty wherever this is
used, so the 0 result on the empty list is never observed). -/
def maxScrollDepthOf (l : List Event) : Int :=
  match l.map (fun e => e.scrollDepth.getD 0) with
  | [] => 0
  | d :: ds => ds.foldl max d

/-- The SQL of `analyzeLowScrollDepth`: scroll events with non-null depth,
grouped by page, `HAVING sessions >= minSessions AND avg_scroll_depth <
maxScrollDepth`. -/
def lowScrollDepthRows (st : List Event) (maxScrollDepth minSessions : ℚ) : List LSDRow :=
  let cands := st.filter (fun e => e.eventType == "scroll" && e.scrollDepth.isSome)
  ((cands.map (fun e => e.pageUrl)).dedup).filterMap
    (fun page =>
      let grp := scrollGroup st page
      let sess := distinctSessions grp
      if minSessions ≤ (sess : ℚ) ∧ avgScrollDepth grp < maxScrollDepth then
        some ⟨page, sess, avgScrollDepth grp, maxScrollDepthOf grp⟩
      else none)

/-! ## Dead Clicks (`RulesEngine.analyzeDeadClicks`) -/

/-- ASCII case folding of a character list, matching SQLite's default
ASCII-case-insensitive `LIKE`. -/
def foldCase (l : List Char) : List Char :=
  l.map Char.toLower

/-- Prefix test on character lists (the semantics of `LIKE 'w%'` for a
wildcard-free `w`). -/
def isPre : List Char → List Char → Bool
  | [], _ => true
  | _ :: _, [] => false
  | a :: as, b :: bs => a == b && isPre as bs

/-- `element_selector LIKE 'w%'` under the default SQLite collation:
ASCII-case-insensitive prefix match. -/
def likeMatch (w s : String) : Bool :=
  isPre (foldCase w.data) (foldCase s.data)

/-- The fixed `nonInteractiveSelectors` whitelist of the `deadClicks` rule
thresholds. -/
def nonInteractiveSelectors : List String :=
  ["div", "span", "p", "h1", "h2", "h3", "h4", "h5", "h6"]

/-- The disjunction of `LIKE` tests generated by
`nonInteractiveSelectors.map(sel => ...).join(' OR ')`. -/
def matchesNonInteractive (sels : List String) (s : String) : Bool :=
  sels.any (fun w => likeMatch w s)

/-- Click events counted by the dead-clicks query for one
`(selector, page)` group. -/
def deadClickGroup (st : List Event) (sels : List String) (page sel : String) : List Event :=
  st.filter (fun e =>
    isClickSel e && matchesNonInteractive sels (e.elementSelector.getD "") &&
      e.elementSelector == some sel && e.pageUrl == page)

/-- One output row of the dead-clicks query. -/
structure DCRow where
  elementSelector : String
  pageUrl : String
  clicks : Nat
  uniqueSessions : Nat
deriving DecidableEq

/-- The SQL of `analyzeDeadClicks`: clicks on whitelisted selectors grouped
by `(element_selector, page_url)`, `HAVING clicks >= minClicksOnNonInteractive`. -/
def deadClicksRows (st : List Event) (sels : List String) (minClicks : ℚ) : List DCRow :=
  let cands := st.filter (fun e =>
    isClickSel e && matchesNonInteractive sels (e.elementSelector.getD ""))
  ((cands.map (fun e => (e.elementSelector.getD "", e.pageUrl))).dedup).filterMap
    (fun k =>
      let grp := deadClickGroup st sels k.2 k.1
      if minClicks ≤ (grp.length : ℚ) then
        some ⟨k.1, k.2, grp.length, distinctSessions grp⟩
      else none)

/-! ## Rage Clicks (`RulesEngine.analyzeRageClicks`) -/

/-- The join condition of the self-join: `e2` is a click of the same session
on the same (non-null) selector whose timestamp lies in the trailing window
`BETWEEN e1.timestamp AND e1.timestamp + timeWindow` (both bounds
inclusive).  Note that the join does NOT constrain `e2.page_url`. -/
def winMatch (timeWindow : ℚ) (e1 e2 : Event) : Bool :=
  e2.eventType == "click" &&
  e1.sessionId == e2.sessionId &&
  e1.elementSelector == e2.elementSelector &&
  decide ((e1.timestamp : ℚ) ≤ (e2.timestamp : ℚ)) &&
  decide ((e2.timestamp : ℚ) ≤ (e1.timestamp : ℚ) + timeWindow)

/-- `COUNT(e2.timestamp)` for one `e1` row: the number of events of the
store matched by the self-join. -/
def clicksInWin (st : List Event) (timeWindow : ℚ) (e1 : Event) : Nat :=
  (st.filter (winMatch timeWindow e1)).length

/-- The grouping key of the inner `rapid_sequences` sub-query:
`(e1.session_id, e1.element_selector, e1.timestamp)`. -/
def rageKey (e : Event) : String × Option String × Int :=
  (e.sessionId, e.elementSelector, e.timestamp)

/-- One row of the inner `rapid_sequences` sub-query. -/
structure RapidRow where
  sessionId : String
  elementSelector : Option String
  pageUrl : String
  timestamp : Int
  clicksInWindow : Nat
deriving DecidableEq

/-- The inner sub-query: candidate `e1` rows (clicks with non-null selector)
grouped by `(session_id, element_selector, timestamp)`; each group's
`clicks_in_window` is the total number of join rows it contains, and the
group is kept `HAVING clicks_in_window >= clicksInWindow`.  `page_url` is a
bare (non-aggregated, non-grouped) column, for which SQLite reports the
value of an unspecified row of the group; the embedding determinizes this
as the first row of the group in table order — groups are singletons
whenever no two candidate clicks share a `(session, selector, timestamp)`
key, in which case no choice is involved. -/
def rapidSequences (st : List Event) (timeWindow clicksInWindow : ℚ) : List RapidRow :=
  let cands := st.filter isClickSel
  ((cands.map rageKey).dedup).filterMap
    (fun k =>
      let grp := cands.filter (fun e => rageKey e == k)
      let cw := (grp.map (clicksInWin st timeWindow)).sum
      if clicksInWindow ≤ (cw : ℚ) then
        some ⟨k.1, k.2.1, ((grp.map (fun e => e.pageUrl)).headD ""), k.2.2, cw⟩
      else none)

/-- The grouping key of the `rage_click_sessions` CTE. -/
def sessionSelPageKey (r : RapidRow) : String × Option String × String :=
  (r.sessionId, r.elementSelector, r.pageUrl)

/-- One row of the `rage_click_sessions` CTE. -/
structure RageSessionRow where
  sessionId : String
  elementSelector : Option String
  pageUrl : String
  rapidClicks : Nat
deriving DecidableEq

/-- The `rage_click_sessions` CTE: the qualifying windows grouped by
`(session_id, element_selector, page_url)`, counting them as
`rapid_clicks`. -/
def rageClickSessions (st : List Event) (timeWindow clicksInWindow : ℚ) : List RageSessionRow :=
  let rs := rapidSequences st timeWindow clicksInWindow
  ((rs.map sessionSelPageKey).dedup).map
    (fun k => ⟨k.1, k.2.1, k.2.2, (rs.filter (fun r => sessionSelPageKey r == k)).length⟩)

/-- One output row of the rage-clicks query. -/
structure RageRow where
  elementSelector : Option String
  pageUrl : String
  affectedSessions : Nat
  totalRageClicks : Nat
  avgRageClicksPerSession : ℚ
deriving DecidableEq

/-- The outer rage-clicks query: `rage_click_sessions` grouped by
`(element_selector, page_url)`, `HAVING affected_sessions >= minOccurrences`. -/
def rageClicksRows (st : List Event) (timeWindow clicksInWindow minOccurrences : ℚ) :
    List RageRow :=
  let rcs := rageClickSessions st timeWindow clicksInWindow
  ((rcs.map (fun r => (r.elementSelector, r.pageUrl))).dedup).filterMap
    (fun k =>
      let grp := rcs.filter (fun r => (r.elementSelector, r.pageUrl) == k)
      let total := (grp.map (fun r => r.rapidClicks)).sum
      if minOccurrences ≤ (grp.length : ℚ) then
        some ⟨k.1, k.2, grp.length, total, (total : ℚ) / (grp.length : ℚ)⟩
      else none)

/-! ## High Exit Rate (`RulesEngine.analyzeHighExitRate`) -/

/-- All events of one `(page_url, session_id)` group — every event type
counts, clicks and scrolls alike. -/
def pageSessionGroup (st : List Event) (page s : String) : List Event :=
  st.filter (fun e => e.pageUrl == page && e.sessionId == s)

/-- `MAX(timestamp) - MIN(timestamp)` over a list of events (0 on the empty
list, which is never consulted: groups are non-empty by construction).  A
single-event group has duration 0. -/
def sessionDuration (st : List Event) (page s : String) : Int :=
  match (pageSessionGroup st page s).map (fun e => e.timestamp) with
  | [] => 0
  | t :: ts => ts.foldl max t - ts.foldl min t

/-- The distinct `(page, session)` keys of the `session_durations` CTE. -/
def sessionDurationKeys (st : List Event) : List (String × String) :=
  (st.map (fun e => (e.pageUrl, e.sessionId))).dedup

/-- One output row of the high-exit-rate query. -/
structure HERRow where
  pageUrl : String
  sessions : Nat
  quickExitSessions : Nat
  exitRate : ℚ
deriving DecidableEq

/-- The SQL of `analyzeHighExitRate`: per-page count of sessions and of
sessions whose duration is `<= maxInteractionTime`, kept
`HAVING COUNT(*) >= minSessions AND exit_rate > 0.5`.  The `0.5` is a
literal of the SQL text, not a threshold parameter. -/
def highExitRateRows (st : List Event) (maxInteractionTime minSessions : ℚ) : List HERRow :=
  let sd := sessionDurationKeys st
  ((sd.map (fun k => k.1)).dedup).filterMap
    (fun page =>
      let grp := sd.filter (fun k => k.1 == page)
      let quick := (grp.filter (fun k => ((sessionDuration st k.1 k.2 : ℚ) ≤ maxInteractionTime))).length
      if minSessions ≤ (grp.length : ℚ) ∧ (1 : ℚ) / 2 < (quick : ℚ) / (grp.length : ℚ) then
        some ⟨page, grp.length, quick, (quick : ℚ) / (grp.length : ℚ)⟩
      else none)

/-! ## Rule configuration (`RulesEngine` constructor, `updateRuleThreshold`) -/

/-- A threshold value as stored in `this.rules[ruleId].thresholds`: every
threshold is a number except `deadClicks.nonInteractiveSelectors`, which is
a list of strings. -/
inductive TVal where
  | num (q : ℚ)
  | strs (l : List String)
deriving DecidableEq

/-- First-match lookup in an association list (JS own-property lookup of an
object literal). -/
def lookupA {α : Type} : List (String × α) → String → Option α
  | [], _ => none
  | p :: t, k => if p.1 == k then some p.2 else lookupA t k

/-- Overwrite the value stored under key `k` (JS property assignment). -/
def setA {α : Type} (l : List (String × α)) (k : String) (v : α) : List (String × α) :=
  l.map (fun p => if p.1 == k then (p.1, v) else p)

/-- The mutable rule state: for each rule id, its `thresholds` object.  The
per-rule `name`, `description` and `severity` are never mutated and are kept
as the fixed functions below. -/
def RulesState : Type := List (String × List (String × TVal))

/-- The `thresholds` defaults of the `RulesEngine` constructor. -/
def defaultRules : RulesState :=
  [("lowClickRate",
      [("minClickRate", TVal.num (5 / 100)), ("minPageViews", TVal.num 10)]),
   ("lowScrollDepth",
      [("maxScrollDepth", TVal.num 30), ("minSessions", TVal.num 5)]),
   ("rageClicks",
      [("clicksInWindow", TVal.num 3), ("timeWindow", TVal.num 2000),
       ("minOccurrences", TVal.num 2)]),
   ("deadClicks",
      [("minClicksOnNonInteractive", TVal.num 5),
       ("nonInteractiveSelectors", TVal.strs nonInteractiveSelectors)]),
   ("highExitRate",
      [("maxInteractionTime", TVal.num 10000), ("minSessions", TVal.num 5)])]

/-- `this.rules[ruleId].thresholds[key]`. -/
def getThreshold (rules : RulesState) (ruleId key : String) : Option TVal :=
  (lookupA rules ruleId).bind (fun ths => lookupA ths key)

/-- Numeric threshold read, with a default that is never consulted on the
reachable rule states (every numeric key of `defaultRules` stays numeric
under the updates the claims consider). -/
def getNumQ (rules : RulesState) (ruleId key : String) (d : ℚ) : ℚ :=
  match getThreshold rules ruleId key with
  | some (TVal.num q) => q
  | _ => d

/-- String-list threshold read (the dead-clicks whitelist). -/
def getStrs (rules : RulesState) (ruleId key : String) (d : List String) : List String :=
  match getThreshold rules ruleId key with
  | some (TVal.strs l) => l
  | _ => d

/-- `RulesEngine.updateRuleThreshold`: if `this.rules[ruleId]` exists and
`this.rules[ruleId].thresholds[thresholdKey] !== undefined`, overwrite the
threshold and return `true`; otherwise change nothing and return `false`.
Rule and threshold lookup is own-property lookup of the object literals of
the constructor. -/
def updateRuleThreshold (rules : RulesState) (ruleId thresholdKey : String) (value : TVal) :
    RulesState × Bool :=
  match lookupA rules ruleId with
  | none => (rules, false)
  | some ths =>
    match lookupA ths thresholdKey with
    | none => (rules, false)
    | some _ => (setA rules ruleId (setA ths thresholdKey value), true)

/-! ## Suggestions (`RulesEngine.getSuggestionsForRule`) -/

/-- One entry of an issue's `suggestions` list. -/
structure Suggestion where
  id : String
  text : String
  priority : String
deriving DecidableEq

/-- The static suggestion catalog (`this.suggestions` of the constructor),
five ordered remediation texts per rule id, `[]` for unknown ids
(`this.suggestions[ruleId] || []`). -/
def suggestionsCatalog (ruleId : String) : List String :=
  if ruleId == "lowClickRate" then
    ["Consider making the button more prominent with better contrast or size",
     "Review button placement - move critical actions above the fold",
     "Test different button text or calls-to-action",
     "Add visual affordances like hover effects or icons",
     "Ensure the button purpose is clear from surrounding context"]
  else if ruleId == "lowScrollDepth" then
    ["Add engaging content above the fold to encourage scrolling",
     "Use visual cues like arrows or gradients to indicate more content below",
     "Break up long content with images, videos, or interactive elements",
     "Consider sticky navigation or progress indicators",
     "Review page loading speed - slow pages discourage scrolling"]
  else if ruleId == "rageClicks" then
    ["Check if the element should be interactive - add proper click handlers",
     "Improve loading feedback - add spinners or disable buttons during processing",
     "Ensure click targets are large enough (minimum 44px)",
     "Fix any JavaScript errors that might prevent proper interaction",
     "Add clear visual feedback when elements are clicked"]
  else if ruleId == "deadClicks" then
    ["Remove click events from non-interactive elements",
     "Style interactive elements to look clickable (buttons, links)",
     "Add proper semantic HTML - use buttons instead of divs for actions",
     "Ensure consistent interaction patterns across the interface",
     "Consider if users expect these elements to be interactive"]
  else if ruleId == "highExitRate" then
    ["Improve page loading speed and performance",
     "Ensure the page content matches user expectations from the entry point",
     "Add clear navigation and breadcrumbs",
     "Include engaging content or clear calls-to-action early on the page",
     "Review and improve the page\u0027s value proposition"]
  else []

/-- `.map((text, index) => ...)` with the running index made explicit. -/
def mapIdxFrom {α β : Type} (f : Nat → α → β) : Nat → List α → List β
  | _, [] => []
  | i, a :: t => f i a :: mapIdxFrom f (i + 1) t

/-- Build one `{id, text, priority}` suggestion from its list position:
`priority` is `high` for index 0, `medium` for index 1, `low` otherwise. -/
def mkSuggestion (ruleId : String) (i : Nat) (text : String) : Suggestion :=
  { id := "suggestion-" ++ ruleId ++ "-" ++ toString i,
    text := text,
    priority := if i == 0 then "high" else if i == 1 then "medium" else "low" }

/-- `RulesEngine.getSuggestionsForRule`: the first three catalog entries
(`.slice(0, 3)`), tagged by position. -/
def getSuggestionsForRule (ruleId : String) : List Suggestion :=
  mapIdxFrom (mkSuggestion ruleId) 0 ((suggestionsCatalog ruleId).take 3)

/-! ## Issues and the analyzers (`RulesEngine.analyze*`) -/

/-- A detected UX issue.  The JS also carries a human-readable `description`
string whose numeric parts are formatted with `toFixed(1)`; it is derived
from the same row fields as `metrics`, is consulted by no claim, and
floating-point decimal formatting is not modelled, so the field is omitted.
`id` interpolates `Date.now()` and a `Math.random()` suffix; the embedding
passes those two sources of nondeterminism explicitly as `now` and `seed`.
`metrics` is the detector-specific name → value mapping. -/
structure Issue where
  id : String
  ruleId : String
  ruleName : String
  severity : String
  elementSelector : Option String
  pageUrl : String
  metrics : List (String × ℚ)
  suggestions : List Suggestion
  detectedAt : Nat
deriving DecidableEq

/-- The issue-id template shared by the analyzers:
`` `${prefix}-${Date.now()}-${Math.random().toString(36).substr(2, 9)}` ``. -/
def issueId (pre : String) (now seed : Nat) : String :=
  pre ++ "-" ++ toString now ++ "-" ++ toString seed

/-- `RulesEngine.analyzeLowClickRate`: destructure the two thresholds of
`this.rules.lowClickRate.thresholds`, run the query, build one issue per
row. -/
def analyzeLowClickRate (rules : RulesState) (st : List Event) (now seed : Nat) : List Issue :=
  let minClickRate := getNumQ rules ("lowClickRate") ("minClickRate") 0
  let minPageViews := getNumQ rules ("lowClickRate") ("minPageViews") 0
  (lowClickRateRows st minClickRate minPageViews).map (fun r =>
    { id := issueId ("low-click-rate") now seed,
      ruleId := "lowClickRate", ruleName := "Low Click Rate", severity := "medium",
      elementSelector := some r.elementSelector, pageUrl := r.pageUrl,
      metrics := [("clickRate", r.clickRate), ("clicks", (r.clicks : ℚ)),
                  ("uniqueSessions", (r.uniqueSessions : ℚ)),
                  ("pageSessions", (r.pageSessionsCount : ℚ))],
      suggestions := [], detectedAt := 0 })

/-- `RulesEngine.analyzeLowScrollDepth`. -/
def analyzeLowScrollDepth (rules : RulesState) (st : List Event) (now seed : Nat) : List Issue :=
  let maxDepth := getNumQ rules ("lowScrollDepth") ("maxScrollDepth") 0
  let minSessions := getNumQ rules ("lowScrollDepth") ("minSessions") 0
  (lowScrollDepthRows st maxDepth minSessions).map (fun r =>
    { id := issueId ("low-scroll-depth") now seed,
      ruleId := "lowScrollDepth", ruleName := "Low Scroll Depth", severity := "low",
      elementSelector := none, pageUrl := r.pageUrl,
      metrics := [("avgScrollDepth", r.avgDepth), ("maxScrollDepth", (r.maxDepth : ℚ)),
                  ("sessions", (r.sessions : ℚ))],
      suggestions := [], detectedAt := 0 })

/-- `RulesEngine.analyzeRageClicks`. -/
def analyzeRageClicks (rules : RulesState) (st : List Event) (now seed : Nat) : List Issue :=
  let clicksInWindow := getNumQ rules ("rageClicks") ("clicksInWindow") 0
  let timeWindow := getNumQ rules ("rageClicks") ("timeWindow") 0
  let minOccurrences := getNumQ rules ("rageClicks") ("minOccurrences") 0
  (rageClicksRows st timeWindow clicksInWindow minOccurrences).map (fun r =>
    { id := issueId ("rage-clicks") now seed,
      ruleId := "rageClicks", ruleName := "Rage Clicks", severity := "high",
      elementSelector := r.elementSelector, pageUrl := r.pageUrl,
      metrics := [("affectedSessions", (r.affectedSessions : ℚ)),
                  ("totalRageClicks", (r.totalRageClicks : ℚ)),
                  ("avgRageClicksPerSession", r.avgRageClicksPerSession)],
      suggestions := [], detectedAt := 0 })

/-- `RulesEngine.analyzeDeadClicks`. -/
def analyzeDeadClicks (rules : RulesState) (st : List Event) (now seed : Nat) : List Issue :=
  let minClicks := getNumQ rules ("deadClicks") ("minClicksOnNonInteractive") 0
  let sels := getStrs rules ("deadClicks") ("nonInteractiveSelectors") []
  (deadClicksRows st sels minClicks).map (fun r =>
    { id := issueId ("dead-clicks") now seed,
      ruleId := "deadClicks", ruleName := "Dead Clicks", severity := "medium",
      elementSelector := some r.elementSelector, pageUrl := r.pageUrl,
      metrics := [("clicks", (r.clicks : ℚ)), ("uniqueSessions", (r.uniqueSessions : ℚ))],
      suggestions := [], detectedAt := 0 })

/-- `RulesEngine.analyzeHighExitRate`. -/
def analyzeHighExitRate (rules : RulesState) (st : List Event) (now seed : Nat) : List Issue :=
  let maxInteractionTime := getNumQ rules ("highExitRate") ("maxInteractionTime") 0
  let minSessions := getNumQ rules ("highExitRate") ("minSessions") 0
  (highExitRateRows st maxInteractionTime minSessions).map (fun r =>
    { id := issueId ("high-exit-rate") now seed,
      ruleId := "highExitRate", ruleName := "High Exit Rate", severity := "medium",
      elementSelector := none, pageUrl := r.pageUrl,
      metrics := [("exitRate", r.exitRate), ("sessions", (r.sessions : ℚ)),
                  ("quickExitSessions", (r.quickExitSessions : ℚ))],
      suggestions := [], detectedAt := 0 })

/-- `RulesEngine.analyzeAllRules`: concatenate the five detectors' issues in
source order, then attach `suggestions := getSuggestionsForRule(ruleId)` and
stamp `detectedAt` on every issue.  The five detectors are independent pure
reads, so the `Promise.all` fan-out joins to the same list as sequential
execution. -/
def analyzeAllRules (rules : RulesState) (st : List Event) (now seed : Nat) : List Issue :=
  (analyzeLowClickRate rules st now seed ++
   analyzeLowScrollDepth rules st now seed ++
   analyzeRageClicks rules st now seed ++
   analyzeDeadClicks rules st now seed ++
   analyzeHighExitRate rules st now seed).map
    (fun i => { i with suggestions := getSuggestionsForRule i.ruleId, detectedAt := now })

/-! ## Metrics aggregation (`Database.getAggregatedMetrics`) -/

/-- The five named reads of `getAggregatedMetrics`, each holding a value of
type `α` (the result rows of the corresponding query, or an outcome). -/
structure MetricsQueries (α : Type) where
  totalEvents : α
  totalSessions : α
  topClickedElements : α
  averageScrollDepth : α
  recentActivity : α
deriving DecidableEq

/-- `Database.getAggregatedMetrics`: five `db.all` reads are issued; the
promise rejects as soon as any read's callback reports an error, and
`resolve(results)` runs only once the success counter reaches the total of
five, i.e. only when every read succeeded.  The embedding takes each read's
outcome and reproduces that control flow: the snapshot is assembled exactly
when all five reads are `ok`, otherwise the first failing read's error (in
field order) is reported and no snapshot exists. -/
def getAggregatedMetrics {α : Type} (r : MetricsQueries (Except String α)) :
    Except String (MetricsQueries α) := do
  let te ← r.totalEvents
  let ts ← r.totalSessions
  let tc ← r.topClickedElements
  let ad ← r.averageScrollDepth
  let ra ← r.recentActivity
  pure ⟨te, ts, tc, ad, ra⟩

/-! ## Generic lemmas about the grouping combinators -/

theorem mem_filterMap_if {κ β : Type} (keys : List κ) (P : κ → Prop) [DecidablePred P]
    (R : κ → β) (x : β) :
    x ∈ keys.filterMap (fun k => if P k then some (R k) else none) ↔
      ∃ k ∈ keys, P k ∧ R k = x := by
  simp only [List.mem_filterMap]
  constructor
  · rintro ⟨k, hk, hx⟩
    by_cases h : P k
    · simp only [if_pos h, Option.some.injEq] at hx
      exact ⟨k, hk, h, hx⟩
    · simp [if_neg h] at hx
  · rintro ⟨k, hk, hP, hx⟩
    exact ⟨k, hk, by simp [if_pos hP, hx]⟩

theorem filter_length_pos_iff {α : Type} (l : List α) (p : α → Bool) :
    0 < (l.filter p).length ↔ ∃ a ∈ l, p a = true := by
  rw [List.length_pos]
  constructor
  · intro h
    rcases List.exists_mem_of_ne_nil _ h with ⟨a, ha⟩
    rcases List.mem_filter.mp ha with ⟨h1, h2⟩
    exact ⟨a, h1, h2⟩
  · rintro ⟨a, ha, hp⟩
    exact List.ne_nil_of_mem (List.mem_filter.mpr ⟨ha, hp⟩)

theorem length_eq_of_nodup_mem_iff {α : Type} [DecidableEq α] {l1 l2 : List α}
    (h1 : l1.Nodup) (h2 : l2.Nodup) (h : ∀ a, a ∈ l1 ↔ a ∈ l2) :
    l1.length = l2.length := by
  have e : l1.toFinset = l2.toFinset := by
    ext a
    simp only [List.mem_toFinset]
    exact h a
  have c1 : l1.toFinset.card = l1.length := by
    rw [List.card_toFinset, List.dedup_eq_self.mpr h1]
  have c2 : l2.toFinset.card = l2.length := by
    rw [List.card_toFinset, List.dedup_eq_self.mpr h2]
  rw [← c1, ← c2, e]

theorem filter_key_eq_singleton {α κ : Type} [BEq κ] [LawfulBEq κ] (key : α → κ) :
    ∀ (l : List α), (l.map key).Nodup → ∀ e ∈ l,
      l.filter (fun a => key a == key e) = [e] := by
  intro l
  induction l with
  | nil => intro _ e he; cases he
  | cons a t ih =>
    intro hnd e he
    rw [List.map_cons, List.nodup_cons] at hnd
    rcases List.mem_cons.mp he with rfl | het
    · rw [List.filter_cons_of_pos (by simp)]
      have ht : t.filter (fun x => key x == key e) = [] := by
        rw [List.filter_eq_nil_iff]
        intro x hx hkey
        exact hnd.1 (List.mem_map.mpr ⟨x, hx, beq_iff_eq.mp hkey⟩)
      rw [ht]
    · have hne : (key a == key e) = false := by
        rw [beq_eq_false_iff_ne]
        intro hkey
        exact hnd.1 (List.mem_map.mpr ⟨e, het, hkey.symm⟩)
      rw [List.filter_cons_of_neg (by simp [hne])]
      exact ih hnd.2 e het

theorem mem_map_filterMap_if {κ β γ : Type} (keys : List κ) (P : κ → Prop) [DecidablePred P]
    (R : κ → β) (proj : β → γ) (x : γ) :
    x ∈ (keys.filterMap (fun k => if P k then some (R k) else none)).map proj ↔
      ∃ k ∈ keys, P k ∧ proj (R k) = x := by
  rw [List.mem_map]
  constructor
  · rintro ⟨r, hr, hx⟩
    rcases (mem_filterMap_if keys P R r).mp hr with ⟨k, hk, hP, hR⟩
    exact ⟨k, hk, hP, by rw [hR]; exact hx⟩
  · rintro ⟨k, hk, hP, hx⟩
    exact ⟨R k, (mem_filterMap_if keys P R (R k)).mpr ⟨k, hk, hP, rfl⟩, hx⟩

/-! ## Low Click Rate: membership characterization -/

theorem getD_eq_iff_of_clickSel {e : Event} (h : isClickNonEmptySel e = true) (sel : String) :
    e.elementSelector.getD "" = sel ↔ e.elementSelector = some sel := by
  cases hsel : e.elementSelector with
  | none => simp [isClickNonEmptySel, hsel] at h
  | some s => simp [hsel]

theorem mem_lowClickRateRows (st : List Event) (mcr mpv : ℚ) (sel page : String) :
    (sel, page) ∈ (lowClickRateRows st mcr mpv).map (fun r => (r.elementSelector, r.pageUrl)) ↔
      0 < (clickGroup st page sel).length ∧
      mpv ≤ (pageSessions st page : ℚ) ∧
      (distinctSessions (clickGroup st page sel) : ℚ) / (pageSessions st page : ℚ) < mcr := by
  simp only [lowClickRateRows]
  rw [mem_map_filterMap_if]
  constructor
  · rintro ⟨k, hk, hP, hproj⟩
    have hk2 : k = (sel, page) := by
      simpa using hproj
    subst hk2
    rcases List.mem_dedup.mp hk with hmem
    rcases List.mem_map.mp hmem with ⟨e, he, hkey⟩
    rcases List.mem_filter.mp he with ⟨hest, hcand⟩
    have hsel : e.elementSelector = some sel := by
      have := (getD_eq_iff_of_clickSel hcand sel).mp (by
        have : e.elementSelector.getD "" = sel := congrArg Prod.fst hkey
        exact this)
      exact this
    have hpage : e.pageUrl = page := congrArg Prod.snd hkey
    refine ⟨?_, hP.1, hP.2⟩
    rw [clickGroup, filter_length_pos_iff]
    exact ⟨e, hest, by simp [hcand, hsel, hpage]⟩
  · rintro ⟨hpos, h1, h2⟩
    rcases (filter_length_pos_iff _ _).mp hpos with ⟨e, he, hp⟩
    simp only [Bool.and_eq_true, beq_iff_eq] at hp
    obtain ⟨⟨hcand, hsel⟩, hpage⟩ := hp
    refine ⟨(sel, page), ?_, ⟨h1, h2⟩, by simp⟩
    rw [List.mem_dedup]
    exact List.mem_map.mpr ⟨e, List.mem_filter.mpr ⟨he, hcand⟩, by
      rw [hsel, hpage]; simp⟩

/-- C4: the Low Click Rate detector flags a `(page, selector)` pair exactly
when the pair has at least one click in the data, the page's distinct-session
count is at least `minPageViews`, and
`clickRate = distinctClickingSessions / distinctPageSessions` is strictly
below `minClickRate`; a page with exactly `minPageViews - 1` distinct
sessions is never flagged regardless of click rate (the guard is a strict
`>=`); and a flagged pair never involves a zero session denominator. -/
theorem lowClickRate_flag_iff (st : List Event) (minClickRate minPageViews : ℚ)
    (page sel : String) :
    ((sel, page) ∈ (lowClickRateRows st minClickRate minPageViews).map
        (fun r => (r.elementSelector, r.pageUrl)) ↔
      0 < (clickGroup st page sel).length ∧
      minPageViews ≤ (pageSessions st page : ℚ) ∧
      (distinctSessions (clickGroup st page sel) : ℚ) / (pageSessions st page : ℚ)
        < minClickRate) ∧
    ((pageSessions st page : ℚ) = minPageViews - 1 →
      (sel, page) ∉ (lowClickRateRows st minClickRate minPageViews).map
        (fun r => (r.elementSelector, r.pageUrl))) ∧
    ((sel, page) ∈ (lowClickRateRows st minClickRate minPageViews).map
        (fun r => (r.elementSelector, r.pageUrl)) →
      0 < pageSessions st page) := by
  refine ⟨mem_lowClickRateRows st minClickRate minPageViews sel page, ?_, ?_⟩
  · intro hps hmem
    rcases (mem_lowClickRateRows st minClickRate minPageViews sel page).mp hmem with ⟨_, h1, _⟩
    rw [hps] at h1
    linarith
  · intro hmem
    rcases (mem_lowClickRateRows st minClickRate minPageViews sel page).mp hmem with ⟨hpos, _, _⟩
    rcases (filter_length_pos_iff _ _).mp hpos with ⟨e, he, hp⟩
    simp only [Bool.and_eq_true, beq_iff_eq] at hp
    obtain ⟨⟨hcand, hsel⟩, hpage⟩ := hp
    unfold pageSessions distinctSessions
    rw [List.length_pos]
    intro hnil
    have hm : e.sessionId ∈
        (List.map (fun e => e.sessionId) (st.filter (fun e => e.pageUrl == page))).dedup := by
      rw [List.mem_dedup]
      exact List.mem_map.mpr ⟨e, List.mem_filter.mpr ⟨he, by simp [hpage]⟩, rfl⟩
    simp [hnil] at hm

/-- Concrete store for the Low Click Rate witness: three sessions visit
`/l`, one of them clicks `button.x`. -/
def lcrW : List Event :=
  [evScroll "s1" "/l" 50 0, evScroll "s2" "/l" 50 0, evScroll "s3" "/l" 50 0,
   evClick "s1" "/l" "button.x" 10]

theorem lowClickRate_flag_iff_witness :
    (("button.x", "/l") ∈ (lowClickRateRows lcrW (1 / 2) 3).map
        (fun r => (r.elementSelector, r.pageUrl))) ∧
    (("button.x", "/l") ∉ (lowClickRateRows lcrW (1 / 2) 4).map
        (fun r => (r.elementSelector, r.pageUrl))) ∧
    0 < pageSessions lcrW "/l" := by
  have h3 := lowClickRate_flag_iff lcrW (1 / 2) 3 "/l" "button.x"
  have h4 := lowClickRate_flag_iff lcrW (1 / 2) 4 "/l" "button.x"
  have hps : pageSessions lcrW "/l" = 3 := by decide
  have hus : distinctSessions (clickGroup lcrW "/l" "button.x") = 1 := by decide
  have hmem := h3.1.mpr ⟨by decide, by rw [hps]; norm_num, by rw [hus, hps]; norm_num⟩
  exact ⟨hmem, h4.2.1 (by rw [hps]; norm_num), h3.2.2 hmem⟩

/-! ## Dead Clicks: case folding and membership characterization -/

theorem toNat_ofNat_of_lt {n : Nat} (h : n < 55296) : (Char.ofNat n).toNat = n := by
  have hv : n.isValidChar := Or.inl h
  rw [Char.ofNat, dif_pos hv]
  rfl

theorem toLower_toLower_eq (c : Char) : Char.toLower (Char.toLower c) = Char.toLower c := by
  simp only [Char.toLower]
  by_cases h : c.toNat ≥ 65 ∧ c.toNat ≤ 90
  · rw [if_pos h]
    have hn : (Char.ofNat (c.toNat + 32)).toNat = c.toNat + 32 := toNat_ofNat_of_lt (by omega)
    rw [if_neg (by rw [hn]; omega)]
  · rw [if_neg h, if_neg h]

theorem foldCase_foldCase (l : List Char) : foldCase (foldCase l) = foldCase l := by
  simp only [foldCase, List.map_map]
  exact List.map_congr_left (fun c _ => toLower_toLower_eq c)

theorem isPre_append_eq (w : List Char) : ∀ (a b : List Char),
    (∀ c ∈ w, c ≠ '.' ∧ c ≠ '#') →
    (b = [] ∨ b.head? = some '.' ∨ b.head? = some '#') →
    isPre w (a ++ b) = isPre w a := by
  induction w with
  | nil => intro a b _ _; rfl
  | cons c cs ih =>
    intro a b hw hb
    cases a with
    | nil =>
      show isPre (c :: cs) b = false
      cases b with
      | nil => rfl
      | cons d bs =>
        have hd : d = '.' ∨ d = '#' := by
          rcases hb with h | h | h
          · cases h
          · exact Or.inl (by simpa using h)
          · exact Or.inr (by simpa using h)
        have hc := hw c (List.mem_cons_self c cs)
        have hcd : (c == d) = false := by
          rw [beq_eq_false_iff_ne]
          rcases hd with rfl | rfl
          · exact hc.1
          · exact hc.2
        simp [isPre, hcd]
    | cons x xs =>
      show (c == x && isPre cs (xs ++ b)) = (c == x && isPre cs xs)
      rw [ih xs b (fun d hd => hw d (List.mem_cons_of_mem _ hd)) hb]

/-- The whitelist matcher at the character-list level (used to state
structural facts about the prefix match). -/
def matchesNonInteractiveL (l : List Char) : Bool :=
  nonInteractiveSelectors.any (fun w => isPre (foldCase w.data) (foldCase l))

theorem matchesNonInteractiveL_append (tag sfx : List Char)
    (hs : sfx = [] ∨ sfx.head? = some '.' ∨ sfx.head? = some '#') :
    matchesNonInteractiveL (tag ++ sfx) = matchesNonInteractiveL tag := by
  have hfold : foldCase sfx = [] ∨ (foldCase sfx).head? = some '.' ∨
      (foldCase sfx).head? = some '#' := by
    rcases hs with rfl | h | h
    · exact Or.inl rfl
    · cases sfx with
      | nil => simp at h
      | cons d ds =>
        refine Or.inr (Or.inl ?_)
        simp only [List.head?_cons, Option.some.injEq] at h
        subst h
        rfl
    · cases sfx with
      | nil => simp at h
      | cons d ds =>
        refine Or.inr (Or.inr ?_)
        simp only [List.head?_cons, Option.some.injEq] at h
        subst h
        rfl
  have hws : ∀ w ∈ nonInteractiveSelectors, ∀ c ∈ foldCase w.data, c ≠ '.' ∧ c ≠ '#' := by
    decide
  have happ : foldCase (tag ++ sfx) = foldCase tag ++ foldCase sfx := List.map_append _ _ _
  simp only [matchesNonInteractiveL, happ]
  have hall : ∀ ws : List String, (∀ w ∈ ws, ∀ c ∈ foldCase w.data, c ≠ '.' ∧ c ≠ '#') →
      (ws.any (fun w => isPre (foldCase w.data) (foldCase tag ++ foldCase sfx))) =
      ws.any (fun w => isPre (foldCase w.data) (foldCase tag)) := by
    intro ws
    induction ws with
    | nil => intro _; rfl
    | cons w t iht =>
      intro hws
      simp only [List.any_cons]
      rw [isPre_append_eq _ _ _ (hws w (List.mem_cons_self w t)) hfold,
        iht (fun v hv => hws v (List.mem_cons_of_mem _ hv))]
  exact hall nonInteractiveSelectors hws

theorem matchesNonInteractiveL_foldCase (l : List Char) :
    matchesNonInteractiveL (foldCase l) = matchesNonInteractiveL l := by
  simp only [matchesNonInteractiveL, foldCase_foldCase]

theorem getD_eq_iff_of_isClickSel {e : Event} (h : isClickSel e = true) (sel : String) :
    e.elementSelector.getD "" = sel ↔ e.elementSelector = some sel := by
  cases hsel : e.elementSelector with
  | none => simp [isClickSel, hsel] at h
  | some s => simp [hsel]

theorem mem_deadClicksRows (st : List Event) (sels : List String) (m : ℚ) (sel page : String) :
    (sel, page) ∈ (deadClicksRows st sels m).map (fun r => (r.elementSelector, r.pageUrl)) ↔
      0 < (deadClickGroup st sels page sel).length ∧
      m ≤ ((deadClickGroup st sels page sel).length : ℚ) := by
  simp only [deadClicksRows]
  rw [mem_map_filterMap_if]
  constructor
  · rintro ⟨k, hk, hP, hproj⟩
    have hk2 : k = (sel, page) := by simpa using hproj
    subst hk2
    rcases List.mem_map.mp (List.mem_dedup.mp hk) with ⟨e, he, hkey⟩
    rcases List.mem_filter.mp he with ⟨hest, hcand⟩
    simp only [Bool.and_eq_true] at hcand
    have hsel : e.elementSelector = some sel :=
      (getD_eq_iff_of_isClickSel hcand.1 sel).mp (congrArg Prod.fst hkey)
    have hpage : e.pageUrl = page := congrArg Prod.snd hkey
    have hmatch : matchesNonInteractive sels (e.elementSelector.getD "") = true := hcand.2
    have hm2 : matchesNonInteractive sels sel = true := by
      rw [hsel] at hmatch
      simpa using hmatch
    refine ⟨?_, hP⟩
    rw [deadClickGroup, filter_length_pos_iff]
    exact ⟨e, hest, by simp [hcand.1, hsel, hpage, hm2]⟩
  · rintro ⟨hpos, hm⟩
    rcases (filter_length_pos_iff _ _).mp hpos with ⟨e, he, hp⟩
    simp only [Bool.and_eq_true, beq_iff_eq] at hp
    obtain ⟨⟨⟨hclick, hmatch⟩, hsel⟩, hpage⟩ := hp
    refine ⟨(sel, page), ?_, hm, by simp⟩
    rw [List.mem_dedup]
    refine List.mem_map.mpr ⟨e, List.mem_filter.mpr ⟨he, by simp [hclick, hmatch]⟩, by
      rw [hsel, hpage]; simp⟩

/-- The claim's reading of the whitelist test: a case-SENSITIVE prefix
match.  Stated only for comparison against the code's `LIKE`, which is
ASCII-case-insensitive under SQLite's default collation. -/
def matchesNonInteractiveCS (sels : List String) (s : String) : Bool :=
  sels.any (fun w => isPre w.data s.data)

/-- Concrete store refuting case-sensitivity: five sessions each click once
on the upper-case selector `DIV.banner` on `/p`. -/
def dcCX : List Event :=
  [evClick "s1" "/p" "DIV.banner" 0, evClick "s2" "/p" "DIV.banner" 1,
   evClick "s3" "/p" "DIV.banner" 2, evClick "s4" "/p" "DIV.banner" 3,
   evClick "s5" "/p" "DIV.banner" 4]

/-- C3 counterexample: with `minClicksOnNonInteractive = 5`, the pair
`("DIV.banner", "/p")` IS flagged by the code (SQLite `LIKE 'div%'` matches
`DIV.banner` case-insensitively), although no whitelist entry is a
case-sensitive prefix of the selector — the claim's case-sensitive count of
matching clicks is 0, not ≥ 5.  The claim as stated is therefore false on
the code. -/
theorem deadClicks_case_sensitive_counterexample :
    (("DIV.banner", "/p") ∈ (deadClicksRows dcCX nonInteractiveSelectors 5).map
        (fun r => (r.elementSelector, r.pageUrl))) ∧
    matchesNonInteractiveCS nonInteractiveSelectors "DIV.banner" = false ∧
    (dcCX.filter (fun e => isClickSel e &&
        matchesNonInteractiveCS nonInteractiveSelectors (e.elementSelector.getD ""))).length
      = 0 := by
  have hlen : (deadClickGroup dcCX nonInteractiveSelectors "/p" "DIV.banner").length = 5 := by
    decide
  refine ⟨(mem_deadClicksRows dcCX nonInteractiveSelectors 5 "DIV.banner" "/p").mpr
    ⟨by rw [hlen]; norm_num, by rw [hlen]; norm_num⟩, by decide, by decide⟩

/-- C3 (amended): the Dead Clicks detector flags a `(page, selector)` pair
exactly when the count of click events on that pair whose selector matches
the non-interactive whitelist (`div, span, p, h1..h6`) by an
ASCII-case-INSENSITIVE prefix (SQLite's default `LIKE` collation) is at
least `minClicksOnNonInteractive`.  The match is decided by the leading tag
alone: appending a class/id suffix (starting with `.` or `#`) never changes
whether the whitelist matches, and ASCII case-folding the selector never
changes it either.  (The original claim said case-SENSITIVE; see the
counterexample.) -/
theorem deadClicks_flag_iff (st : List Event) (m : ℚ) (sel page : String) :
    ((sel, page) ∈ (deadClicksRows st nonInteractiveSelectors m).map
        (fun r => (r.elementSelector, r.pageUrl)) ↔
      0 < (deadClickGroup st nonInteractiveSelectors page sel).length ∧
      m ≤ ((deadClickGroup st nonInteractiveSelectors page sel).length : ℚ)) ∧
    (∀ s : String, matchesNonInteractive nonInteractiveSelectors s
      = matchesNonInteractiveL s.data) ∧
    (∀ tag sfx : List Char,
      (sfx = [] ∨ sfx.head? = some '.' ∨ sfx.head? = some '#') →
      matchesNonInteractiveL (tag ++ sfx) = matchesNonInteractiveL tag) ∧
    (∀ l : List Char, matchesNonInteractiveL (foldCase l) = matchesNonInteractiveL l) := by
  exact ⟨mem_deadClicksRows st nonInteractiveSelectors m sel page, fun s => rfl,
    fun tag sfx hs => matchesNonInteractiveL_append tag sfx hs,
    matchesNonInteractiveL_foldCase⟩

/-- Concrete store for the Dead Clicks witness: two sessions click
`div.pic` on `/p`. -/
def dcW : List Event :=
  [evClick "s1" "/p" "div.pic" 0, evClick "s2" "/p" "div.pic" 1]

theorem deadClicks_flag_iff_witness :
    (("div.pic", "/p") ∈ (deadClicksRows dcW nonInteractiveSelectors 2).map
        (fun r => (r.elementSelector, r.pageUrl))) ∧
    matchesNonInteractiveL ("div.pic").data = matchesNonInteractiveL ("div").data := by
  have h := deadClicks_flag_iff dcW 2 "div.pic" "/p"
  have hlen : (deadClickGroup dcW nonInteractiveSelectors "/p" "div.pic").length = 2 := by
    decide
  refine ⟨h.1.mpr ⟨by rw [hlen]; norm_num, by rw [hlen]; norm_num⟩, ?_⟩
  have hsplit : ("div.pic").data = ("div").data ++ (".pic").data := by decide
  rw [hsplit]
  exact h.2.2.1 (("div").data) ((".pic").data) (by decide)

/-! ## High Exit Rate: membership characterization -/

/-- The distinct sessions that visited a page (any event type). -/
def pageSessionList (st : List Event) (page : String) : List String :=
  ((st.filter (fun e => e.pageUrl == page)).map (fun e => e.sessionId)).dedup

/-- The page's sessions whose `(page, session)` duration is at most
`maxInteractionTime` — the `quick_exit_sessions` numerator. -/
def quickExitCount (st : List Event) (page : String) (maxIT : ℚ) : Nat :=
  ((pageSessionList st page).filter
    (fun s => ((sessionDuration st page s : ℚ) ≤ maxIT))).length

theorem pageSessions_pos (st : List Event) (page : String) :
    0 < pageSessions st page ↔ ∃ e ∈ st, e.pageUrl = page := by
  unfold pageSessions distinctSessions
  rw [List.length_pos]
  constructor
  · intro h
    rcases List.exists_mem_of_ne_nil _ h with ⟨s, hs⟩
    rw [List.mem_dedup] at hs
    rcases List.mem_map.mp hs with ⟨e, he, _⟩
    rcases List.mem_filter.mp he with ⟨he1, he2⟩
    exact ⟨e, he1, beq_iff_eq.mp he2⟩
  · rintro ⟨e, he, hp⟩
    apply List.ne_nil_of_mem (a := e.sessionId)
    rw [List.mem_dedup]
    exact List.mem_map.mpr ⟨e, List.mem_filter.mpr ⟨he, by simp [hp]⟩, rfl⟩

theorem mem_sessionDurationKeys (st : List Event) (page s : String) :
    (page, s) ∈ sessionDurationKeys st ↔ s ∈ pageSessionList st page := by
  simp only [sessionDurationKeys, pageSessionList, List.mem_dedup, List.mem_map,
    List.mem_filter]
  constructor
  · rintro ⟨e, he, hk⟩
    have h1 : e.pageUrl = page := congrArg Prod.fst hk
    have h2 : e.sessionId = s := congrArg Prod.snd hk
    exact ⟨e, ⟨he, by simp [h1]⟩, h2⟩
  · rintro ⟨e, ⟨he, hp⟩, hs⟩
    rw [beq_iff_eq] at hp
    exact ⟨e, he, by rw [hp, hs]⟩

theorem herGrp_length (st : List Event) (page : String) :
    ((sessionDurationKeys st).filter (fun k => k.1 == page)).length =
      pageSessions st page := by
  rw [show ((sessionDurationKeys st).filter (fun k => k.1 == page)).length
      = (((sessionDurationKeys st).filter (fun k => k.1 == page)).map (fun k => k.2)).length
    from (List.length_map _ _).symm]
  show _ = (pageSessionList st page).length
  apply length_eq_of_nodup_mem_iff
  · apply List.Nodup.map_on
    · intro x hx y hy hxy
      rcases List.mem_filter.mp hx with ⟨_, hx2⟩
      rcases List.mem_filter.mp hy with ⟨_, hy2⟩
      rw [beq_iff_eq] at hx2 hy2
      exact Prod.ext (hx2.trans hy2.symm) hxy
    · exact (List.nodup_dedup _).filter _
  · exact List.nodup_dedup _
  · intro s
    constructor
    · intro hs
      rcases List.mem_map.mp hs with ⟨k, hk, hks⟩
      rcases List.mem_filter.mp hk with ⟨hk1, hk2⟩
      rw [beq_iff_eq] at hk2
      have hkp : k = (page, s) := Prod.ext hk2 hks
      rw [hkp] at hk1
      exact (mem_sessionDurationKeys st page s).mp hk1
    · intro hs
      exact List.mem_map.mpr ⟨(page, s),
        List.mem_filter.mpr ⟨(mem_sessionDurationKeys st page s).mpr hs, by simp⟩, rfl⟩

theorem herQuick_length (st : List Event) (page : String) (maxIT : ℚ) :
    (((sessionDurationKeys st).filter (fun k => k.1 == page)).filter
        (fun k => ((sessionDuration st k.1 k.2 : ℚ) ≤ maxIT))).length =
      quickExitCount st page maxIT := by
  rw [show (((sessionDurationKeys st).filter (fun k => k.1 == page)).filter
        (fun k => ((sessionDuration st k.1 k.2 : ℚ) ≤ maxIT))).length
      = ((((sessionDurationKeys st).filter (fun k => k.1 == page)).filter
        (fun k => ((sessionDuration st k.1 k.2 : ℚ) ≤ maxIT))).map (fun k => k.2)).length
    from (List.length_map _ _).symm]
  show _ = ((pageSessionList st page).filter
    (fun s => ((sessionDuration st page s : ℚ) ≤ maxIT))).length
  apply length_eq_of_nodup_mem_iff
  · apply List.Nodup.map_on
    · intro x hx y hy hxy
      rcases List.mem_filter.mp (List.mem_filter.mp hx).1 with ⟨_, hx2⟩
      rcases List.mem_filter.mp (List.mem_filter.mp hy).1 with ⟨_, hy2⟩
      rw [beq_iff_eq] at hx2 hy2
      exact Prod.ext (hx2.trans hy2.symm) hxy
    · exact ((List.nodup_dedup _).filter _).filter _
  · exact (List.nodup_dedup _).filter _
  · intro s
    constructor
    · intro hs
      rcases List.mem_map.mp hs with ⟨k, hk, hks⟩
      rcases List.mem_filter.mp hk with ⟨hk1, hkd⟩
      rcases List.mem_filter.mp hk1 with ⟨hk0, hk2⟩
      rw [beq_iff_eq] at hk2
      have hkp : k = (page, s) := Prod.ext hk2 hks
      rw [hkp] at hk0 hkd
      exact List.mem_filter.mpr ⟨(mem_sessionDurationKeys st page s).mp hk0, hkd⟩
    · intro hs
      rcases List.mem_filter.mp hs with ⟨hs1, hsd⟩
      refine List.mem_map.mpr ⟨(page, s), List.mem_filter.mpr ⟨List.mem_filter.mpr
        ⟨(mem_sessionDurationKeys st page s).mpr hs1, by simp⟩, hsd⟩, rfl⟩

theorem mem_highExitRateRows (st : List Event) (maxIT minS : ℚ) (page : String) :
    page ∈ (highExitRateRows st maxIT minS).map (fun r => r.pageUrl) ↔
      0 < pageSessions st page ∧ minS ≤ (pageSessions st page : ℚ) ∧
      (1 : ℚ) / 2 < (quickExitCount st page maxIT : ℚ) / (pageSessions st page : ℚ) := by
  simp only [highExitRateRows]
  rw [mem_map_filterMap_if]
  constructor
  · rintro ⟨p, hp, hP, hproj⟩
    have hpp : p = page := hproj
    subst hpp
    rw [herGrp_length, herQuick_length] at hP
    refine ⟨?_, hP.1, hP.2⟩
    rcases List.mem_map.mp (List.mem_dedup.mp hp) with ⟨k, hk, hkp⟩
    rcases List.mem_map.mp (List.mem_dedup.mp hk) with ⟨e, he, hke⟩
    refine (pageSessions_pos st p).mpr ⟨e, he, ?_⟩
    rw [← hkp, ← hke]
  · rintro ⟨hpos, h1, h2⟩
    rcases (pageSessions_pos st page).mp hpos with ⟨e, he, hep⟩
    refine ⟨page, ?_, ?_, rfl⟩
    · rw [List.mem_dedup]
      refine List.mem_map.mpr ⟨(e.pageUrl, e.sessionId), ?_, hep⟩
      rw [sessionDurationKeys, List.mem_dedup]
      exact List.mem_map.mpr ⟨e, he, rfl⟩
    · rw [herGrp_length, herQuick_length]
      exact ⟨h1, h2⟩

/-- C5: the High Exit Rate detector computes, for each `(page, session)`,
`duration = max(timestamp) - min(timestamp)` over ALL events of that session
on that page (clicks and scrolls alike); sets
`exitRate = sessionsWithDuration <= maxInteractionTime / totalSessions`; and
flags a page exactly when the page occurs in the data, its total session
count is at least `minSessions`, and `exitRate > 1/2` — the `1/2` is a
literal of the statement for EVERY value of the two thresholds, so no
threshold update can change it.  A session with a single event on the page
has duration 0 (and is hence a quick exit whenever `maxInteractionTime` is
non-negative). -/
theorem highExitRate_flag_iff (st : List Event) (maxIT minS : ℚ) (page : String) :
    (page ∈ (highExitRateRows st maxIT minS).map (fun r => r.pageUrl) ↔
      0 < pageSessions st page ∧ minS ≤ (pageSessions st page : ℚ) ∧
      (1 : ℚ) / 2 < (quickExitCount st page maxIT : ℚ) / (pageSessions st page : ℚ)) ∧
    (∀ s : String, (pageSessionGroup st page s).length = 1 →
      sessionDuration st page s = 0) := by
  refine ⟨mem_highExitRateRows st maxIT minS page, ?_⟩
  intro s hs
  rcases List.length_eq_one.mp hs with ⟨e, he⟩
  rw [sessionDuration, he]
  simp

/-- Concrete store for the High Exit Rate witness: on `/pricing`, session
`s1` has two events 20000 ms apart; sessions `s2` and `s3` each have a
single event (duration 0). -/
def herW : List Event :=
  [evScroll "s1" "/pricing" 10 0, evScroll "s1" "/pricing" 20 20000,
   evScroll "s2" "/pricing" 10 0, evScroll "s3" "/pricing" 10 0]

theorem highExitRate_flag_iff_witness :
    ("/pricing" ∈ (highExitRateRows herW 10000 3).map (fun r => r.pageUrl)) ∧
    sessionDuration herW "/pricing" "s2" = 0 := by
  have h := highExitRate_flag_iff herW 10000 3 "/pricing"
  have hps : pageSessions herW "/pricing" = 3 := by decide
  have hq : quickExitCount herW "/pricing" 10000 = 2 := by decide
  exact ⟨h.1.mpr ⟨by rw [hps]; norm_num, by rw [hps]; norm_num, by rw [hps, hq]; norm_num⟩,
    h.2 "s2" (by decide)⟩

/-! ## Rage Clicks: membership characterization -/

theorem mem_rapidSequences (st : List Event) (W K : ℚ)
    (Hu : ((st.filter isClickSel).map rageKey).Nodup) (r : RapidRow) :
    r ∈ rapidSequences st W K ↔
      ∃ e ∈ st, isClickSel e = true ∧ K ≤ (clicksInWin st W e : ℚ) ∧
        r = ⟨e.sessionId, e.elementSelector, e.pageUrl, e.timestamp, clicksInWin st W e⟩ := by
  simp only [rapidSequences]
  rw [mem_filterMap_if]
  constructor
  · rintro ⟨k, hk, hP, hmk⟩
    rcases List.mem_map.mp (List.mem_dedup.mp hk) with ⟨e, he, hke⟩
    subst hke
    have hsing : (st.filter isClickSel).filter (fun a => rageKey a == rageKey e) = [e] :=
      filter_key_eq_singleton rageKey _ Hu e he
    rcases List.mem_filter.mp he with ⟨hest, hcs⟩
    rw [hsing] at hP hmk
    refine ⟨e, hest, hcs, by simpa using hP, ?_⟩
    rw [← hmk]
    simp [rageKey]
  · rintro ⟨e, hest, hcs, hK, hr⟩
    have he : e ∈ st.filter isClickSel := List.mem_filter.mpr ⟨hest, hcs⟩
    have hsing : (st.filter isClickSel).filter (fun a => rageKey a == rageKey e) = [e] :=
      filter_key_eq_singleton rageKey _ Hu e he
    refine ⟨rageKey e, List.mem_dedup.mpr (List.mem_map.mpr ⟨e, he, rfl⟩), ?_, ?_⟩
    · rw [hsing]
      simpa using hK
    · rw [hsing, hr]
      simp [rageKey]

/-- The claim's notion of rage sessions for `(page, selector)`: distinct
sessions having at least one qualifying click — a click on the selector on
that page whose trailing-window click count meets `clicksInWindow`. -/
def rageSessions (st : List Event) (timeWindow clicksInWindow : ℚ) (page sel : String) :
    List String :=
  ((st.filter (fun e => isClickSel e && e.elementSelector == some sel && e.pageUrl == page &&
      decide (clicksInWindow ≤ (clicksInWin st timeWindow e : ℚ)))).map
    (fun e => e.sessionId)).dedup

theorem mem_rageSessionsList (st : List Event) (W K : ℚ) (sel page s : String) :
    s ∈ rageSessions st W K page sel ↔
      ∃ e ∈ st, isClickSel e = true ∧ e.elementSelector = some sel ∧ e.pageUrl = page ∧
        K ≤ (clicksInWin st W e : ℚ) ∧ e.sessionId = s := by
  simp only [rageSessions, List.mem_dedup, List.mem_map, List.mem_filter, Bool.and_eq_true,
    beq_iff_eq, decide_eq_true_eq]
  constructor
  · rintro ⟨e, ⟨he, ⟨⟨⟨h1, h2⟩, h3⟩, h4⟩⟩, h5⟩
    exact ⟨e, he, h1, h2, h3, h4, h5⟩
  · rintro ⟨e, he, h1, h2, h3, h4, h5⟩
    exact ⟨e, ⟨he, ⟨⟨⟨h1, h2⟩, h3⟩, h4⟩⟩, h5⟩

/-- The `(session_id, element_selector, page_url)` key of a
`rage_click_sessions` row (proof-side accessor). -/
def rcsKey (r : RageSessionRow) : String × Option String × String :=
  (r.sessionId, r.elementSelector, r.pageUrl)

theorem rcs_eq_of_key_eq (st : List Event) (W K : ℚ) {x y : RageSessionRow}
    (hx : x ∈ rageClickSessions st W K) (hy : y ∈ rageClickSessions st W K)
    (h : rcsKey x = rcsKey y) : x = y := by
  rw [rageClickSessions] at hx hy
  rcases List.mem_map.mp hx with ⟨kx, _, hkx⟩
  rcases List.mem_map.mp hy with ⟨ky, _, hky⟩
  subst hkx
  subst hky
  have hk : kx = ky := h
  rw [hk]

theorem rcs_nodup (st : List Event) (W K : ℚ) : (rageClickSessions st W K).Nodup := by
  rw [rageClickSessions]
  apply List.Nodup.map_on
  · intro kx _ ky _ heq
    exact congrArg rcsKey heq
  · exact List.nodup_dedup _

theorem mem_rcs_filter_map (st : List Event) (W K : ℚ)
    (Hu : ((st.filter isClickSel).map rageKey).Nodup) (sel page s : String) :
    s ∈ ((rageClickSessions st W K).filter
        (fun r => (r.elementSelector, r.pageUrl) == (some sel, page))).map
        (fun r => r.sessionId) ↔
      s ∈ rageSessions st W K page sel := by
  rw [mem_rageSessionsList]
  constructor
  · intro h
    rcases List.mem_map.mp h with ⟨x, hx, hxs⟩
    rcases List.mem_filter.mp hx with ⟨hxr, hxp⟩
    rw [rageClickSessions] at hxr
    rcases List.mem_map.mp hxr with ⟨k, hk, hkx⟩
    rw [beq_iff_eq] at hxp
    have hxe : x.elementSelector = some sel := congrArg Prod.fst hxp
    have hxg : x.pageUrl = page := congrArg Prod.snd hxp
    have hk1 : k.1 = s := by rw [← hxs, ← hkx]
    have hk21 : k.2.1 = some sel := by rw [← hxe, ← hkx]
    have hk22 : k.2.2 = page := by rw [← hxg, ← hkx]
    rcases List.mem_map.mp (List.mem_dedup.mp hk) with ⟨r, hr, hrk⟩
    rcases (mem_rapidSequences st W K Hu r).mp hr with ⟨e, he, hcs, hK, hre⟩
    have hek : (e.sessionId, e.elementSelector, e.pageUrl) = k := by
      rw [← hrk, hre]
      rfl
    have he1 : e.sessionId = k.1 := congrArg Prod.fst hek
    have he21 : e.elementSelector = k.2.1 := congrArg (fun p => p.2.1) hek
    have he22 : e.pageUrl = k.2.2 := congrArg (fun p => p.2.2) hek
    exact ⟨e, he, hcs, he21.trans hk21, he22.trans hk22, hK, he1.trans hk1⟩
  · rintro ⟨e, he, hcs, hsel, hpage, hK, hsid⟩
    have hr : (⟨e.sessionId, e.elementSelector, e.pageUrl, e.timestamp,
        clicksInWin st W e⟩ : RapidRow) ∈ rapidSequences st W K :=
      (mem_rapidSequences st W K Hu _).mpr ⟨e, he, hcs, hK, rfl⟩
    have hk : (e.sessionId, e.elementSelector, e.pageUrl) ∈
        ((rapidSequences st W K).map sessionSelPageKey).dedup := by
      rw [List.mem_dedup]
      exact List.mem_map.mpr ⟨_, hr, rfl⟩
    refine List.mem_map.mpr ⟨⟨e.sessionId, e.elementSelector, e.pageUrl,
      ((rapidSequences st W K).filter (fun r => sessionSelPageKey r ==
        (e.sessionId, e.elementSelector, e.pageUrl))).length⟩,
      List.mem_filter.mpr ⟨?_, ?_⟩, hsid⟩
    · rw [rageClickSessions]
      exact List.mem_map.mpr ⟨(e.sessionId, e.elementSelector, e.pageUrl), hk, rfl⟩
    · simp [hsel, hpage]

theorem rageCount_eq (st : List Event) (W K : ℚ)
    (Hu : ((st.filter isClickSel).map rageKey).Nodup) (sel page : String) :
    ((rageClickSessions st W K).filter
      (fun r => (r.elementSelector, r.pageUrl) == (some sel, page))).length
    = (rageSessions st W K page sel).length := by
  rw [show ((rageClickSessions st W K).filter
        (fun r => (r.elementSelector, r.pageUrl) == (some sel, page))).length
      = (((rageClickSessions st W K).filter
        (fun r => (r.elementSelector, r.pageUrl) == (some sel, page))).map
        (fun r => r.sessionId)).length
    from (List.length_map _ _).symm]
  apply length_eq_of_nodup_mem_iff
  · apply List.Nodup.map_on
    · intro x hx y hy hxy
      rcases List.mem_filter.mp hx with ⟨hx1, hx2⟩
      rcases List.mem_filter.mp hy with ⟨hy1, hy2⟩
      rw [beq_iff_eq] at hx2 hy2
      have hxe : x.elementSelector = some sel := congrArg Prod.fst hx2
      have hxg : x.pageUrl = page := congrArg Prod.snd hx2
      have hye : y.elementSelector = some sel := congrArg Prod.fst hy2
      have hyg : y.pageUrl = page := congrArg Prod.snd hy2
      apply rcs_eq_of_key_eq st W K hx1 hy1
      show (x.sessionId, x.elementSelector, x.pageUrl) = (y.sessionId, y.elementSelector, y.pageUrl)
      rw [hxy, hxe, hxg, hye, hyg]
    · exact (rcs_nodup st W K).filter _
  · exact List.nodup_dedup _
  · intro s
    exact mem_rcs_filter_map st W K Hu sel page s

/-- C2 (amended): the Rage Clicks detector, on stores where no two stored
click events share a `(session, selector, timestamp)` key.  For each
`(session, selector)`, a click qualifies when the number of clicks of that
session on that selector whose timestamp lies in the trailing window
`[t, t + timeWindow]` of the click's own timestamp `t` (both bounds
inclusive, the click counting itself) is at least `clicksInWindow`; a
session with at least one qualifying click is a rage session for the
`(page, selector)` of that click; and a `(page, selector)` pair is flagged
exactly when its number of distinct rage sessions is at least
`minOccurrences`.  The duplicate-free proviso is forced by the code: the
inner `GROUP BY (session_id, element_selector, timestamp)` merges duplicate
clicks into one group whose `COUNT(e2.timestamp)` SUMS the copies' window
matches (and whose bare `page_url` column becomes ill-defined), so on
stores with duplicates a pair can be flagged although no single click has
`clicksInWindow` clicks in its window — see the counterexample. -/
theorem rageClicks_flag_iff (st : List Event) (W K M : ℚ)
    (Hu : ((st.filter isClickSel).map rageKey).Nodup) (sel page : String) :
    (some sel, page) ∈ (rageClicksRows st W K M).map
        (fun r => (r.elementSelector, r.pageUrl)) ↔
      0 < (rageSessions st W K page sel).length ∧
      M ≤ ((rageSessions st W K page sel).length : ℚ) := by
  simp only [rageClicksRows]
  rw [mem_map_filterMap_if]
  constructor
  · rintro ⟨k, hk, hP, hproj⟩
    have hk2 : k = (some sel, page) := by simpa using hproj
    subst hk2
    rw [rageCount_eq st W K Hu sel page] at hP
    refine ⟨?_, hP⟩
    rcases List.mem_map.mp (List.mem_dedup.mp hk) with ⟨x, hx, hxk⟩
    have hxf : x ∈ (rageClickSessions st W K).filter
        (fun r => (r.elementSelector, r.pageUrl) == (some sel, page)) :=
      List.mem_filter.mpr ⟨hx, by simp [hxk]⟩
    have hpos : 0 < ((rageClickSessions st W K).filter
        (fun r => (r.elementSelector, r.pageUrl) == (some sel, page))).length :=
      List.length_pos.mpr (List.ne_nil_of_mem hxf)
    rwa [rageCount_eq st W K Hu sel page] at hpos
  · rintro ⟨hpos, hM⟩
    have hpos' : 0 < ((rageClickSessions st W K).filter
        (fun r => (r.elementSelector, r.pageUrl) == (some sel, page))).length := by
      rw [rageCount_eq st W K Hu sel page]
      exact hpos
    rcases List.exists_mem_of_ne_nil _ (List.length_pos.mp hpos') with ⟨x, hxf⟩
    rcases List.mem_filter.mp hxf with ⟨hx, hpr⟩
    refine ⟨(some sel, page), ?_, ?_, by simp⟩
    · rw [List.mem_dedup]
      exact List.mem_map.mpr ⟨x, hx, beq_iff_eq.mp hpr⟩
    · rw [rageCount_eq st W K Hu sel page]
      exact hM

/-- Concrete store for the Rage Clicks witness: two sessions each fire
three clicks 500 ms apart on `button.y` on `/c`. -/
def rageW : List Event :=
  [evClick "a" "/c" "button.y" 0, evClick "a" "/c" "button.y" 500,
   evClick "a" "/c" "button.y" 1000,
   evClick "b" "/c" "button.y" 5000, evClick "b" "/c" "button.y" 5500,
   evClick "b" "/c" "button.y" 6000]

theorem rageClicks_flag_iff_witness :
    ((some "button.y", "/c") ∈ (rageClicksRows rageW 2000 3 2).map
        (fun r => (r.elementSelector, r.pageUrl))) ∧
    (rageSessions rageW 2000 3 "/c" "button.y").length = 2 := by
  have Hu : ((rageW.filter isClickSel).map rageKey).Nodup := by decide
  have h := rageClicks_flag_iff rageW 2000 3 2 Hu "button.y" "/c"
  have hlen : (rageSessions rageW 2000 3 "/c" "button.y").length = 2 := by
    norm_num [rageSessions, rageW, clicksInWin, winMatch, evClick, isClickSel, List.filter]
    decide
  exact ⟨h.mpr ⟨by rw [hlen]; norm_num, by rw [hlen]; norm_num⟩, hlen⟩

/-- Store refuting the unrestricted claim: two sessions each fire two
IDENTICAL clicks (same session, selector and timestamp) on `button.z` on
`/d`. -/
def rageCX : List Event :=
  [evClick "a" "/d" "button.z" 0, evClick "a" "/d" "button.z" 0,
   evClick "b" "/d" "button.z" 0, evClick "b" "/d" "button.z" 0]

/-- C2 counterexample: the claim quantifies over every event store state,
but on `rageCX` (duplicate simultaneous clicks) it is false on the code.
Each click's trailing-window count is 2, below `clicksInWindow = 3`, so by
the claim's semantics no click qualifies, there are no rage sessions
(`rageSessions` is empty), and the pair must not be flagged.  The SQL's
inner `GROUP BY` however merges each session's two identical rows into one
group whose `COUNT(e2.timestamp)` sums the copies' matches (2 × 2 = 4 ≥ 3),
yielding two rage sessions ≥ `minOccurrences = 2` — the code flags
`(button.z, /d)`. -/
theorem rageClicks_duplicate_clicks_counterexample :
    ((some "button.z", "/d") ∈ (rageClicksRows rageCX 2000 3 2).map
        (fun r => (r.elementSelector, r.pageUrl))) ∧
    rageSessions rageCX 2000 3 ("/d") ("button.z") = [] ∧
    clicksInWin rageCX 2000 (evClick ("a") ("/d") ("button.z") 0) = 2 ∧
    clicksInWin rageCX 2000 (evClick ("b") ("/d") ("button.z") 0) = 2 ∧
    2 < 3 := by
  have hcwa : clicksInWin rageCX 2000 (evClick ("a") ("/d") ("button.z") 0) = 2 := by
    norm_num [clicksInWin, winMatch, rageCX, evClick, List.filter]
    decide
  have hcwb : clicksInWin rageCX 2000 (evClick ("b") ("/d") ("button.z") 0) = 2 := by
    norm_num [clicksInWin, winMatch, rageCX, evClick, List.filter]
    decide
  have hkeys : ((rageCX.filter isClickSel).map rageKey).dedup
      = [("a", some "button.z", (0 : ℤ)), ("b", some "button.z", (0 : ℤ))] := by decide
  have hgrpa : (rageCX.filter isClickSel).filter
      (fun e => rageKey e == ("a", some "button.z", (0 : ℤ)))
      = [evClick ("a") ("/d") ("button.z") 0, evClick ("a") ("/d") ("button.z") 0] := by
    decide
  have hgrpb : (rageCX.filter isClickSel).filter
      (fun e => rageKey e == ("b", some "button.z", (0 : ℤ)))
      = [evClick ("b") ("/d") ("button.z") 0, evClick ("b") ("/d") ("button.z") 0] := by
    decide
  have hrap : rapidSequences rageCX 2000 3
      = [⟨"a", some "button.z", "/d", 0, 4⟩, ⟨"b", some "button.z", "/d", 0, 4⟩] := by
    simp only [rapidSequences]
    rw [hkeys]
    simp only [List.filterMap_cons, List.filterMap_nil]
    rw [hgrpa, hgrpb]
    simp only [List.map_cons, List.map_nil, List.sum_cons, List.sum_nil, hcwa, hcwb]
    norm_num [List.headD, evClick]
  have hrcs : rageClickSessions rageCX 2000 3
      = [⟨"a", some "button.z", "/d", 1⟩, ⟨"b", some "button.z", "/d", 1⟩] := by
    simp only [rageClickSessions]
    rw [hrap]
    decide
  have hflen : ((rageClickSessions rageCX 2000 3).filter
      (fun r => (r.elementSelector, r.pageUrl) == (some "button.z", "/d"))).length = 2 := by
    rw [hrcs]
    decide
  have hmem : (some "button.z", "/d") ∈ (rageClicksRows rageCX 2000 3 2).map
      (fun r => (r.elementSelector, r.pageUrl)) := by
    simp only [rageClicksRows]
    rw [mem_map_filterMap_if]
    refine ⟨(some "button.z", "/d"), ?_, ?_, by simp⟩
    · rw [List.mem_dedup, hrcs]
      decide
    · rw [hflen]
      norm_num
  have hfilter : rageCX.filter (fun e => isClickSel e && e.elementSelector == some "button.z" &&
      e.pageUrl == "/d" && decide ((3 : ℚ) ≤ (clicksInWin rageCX 2000 e : ℚ))) = [] := by
    rw [List.filter_eq_nil_iff]
    intro e he
    have he2 : e = evClick ("a") ("/d") ("button.z") 0 ∨
        e = evClick ("b") ("/d") ("button.z") 0 := by
      simpa [rageCX] using he
    rcases he2 with rfl | rfl
    · simp only [Bool.and_eq_true, decide_eq_true_eq, hcwa]
      rintro ⟨-, h3⟩
      norm_num at h3
    · simp only [Bool.and_eq_true, decide_eq_true_eq, hcwb]
      rintro ⟨-, h3⟩
      norm_num at h3
  have hrs : rageSessions rageCX 2000 3 ("/d") ("button.z") = [] := by
    rw [rageSessions, hfilter]
    rfl
  exact ⟨hmem, hrs, hcwa, hcwb, by norm_num⟩

/-- Concrete store for the cross-page window fact: one session clicks the
same selector once on `/a` and twice on `/b`, all three clicks within
2000 ms of the first. -/
def c10St : List Event :=
  [evClick "s" "/a" "b.buy" 0, evClick "s" "/b" "b.buy" 500,
   evClick "s" "/b" "b.buy" 1000]

/-- C10: the rage-clicks self-join constrains session and selector but NOT
page, so the windowed count of the click at `t = 0` on page `/a` includes
the session's clicks on the same selector on page `/b`: it is 3, which
meets the default `clicksInWindow = 3`, although page `/a` alone
contributes only 1 click of the window and page `/b` alone only 2 — fewer
than the threshold on either page in isolation. -/
theorem rageClicks_window_ignores_page :
    clicksInWin c10St 2000 (evClick "s" "/a" "b.buy" 0) = 3 ∧
    (3 : ℚ) ≤ (clicksInWin c10St 2000 (evClick "s" "/a" "b.buy" 0) : ℚ) ∧
    (c10St.filter (fun e => winMatch 2000 (evClick "s" "/a" "b.buy" 0) e &&
      e.pageUrl == "/a")).length = 1 ∧
    (c10St.filter (fun e => winMatch 2000 (evClick "s" "/a" "b.buy" 0) e &&
      e.pageUrl == "/b")).length = 2 ∧
    1 < 3 ∧ 2 < 3 := by
  have h : clicksInWin c10St 2000 (evClick "s" "/a" "b.buy" 0) = 3 := by
    norm_num [clicksInWin, winMatch, c10St, evClick, List.filter]
  refine ⟨h, by rw [h]; norm_num, ?_, ?_, by norm_num, by norm_num⟩
  · norm_num [winMatch, c10St, evClick, List.filter]
    decide
  · norm_num [winMatch, c10St, evClick, List.filter]
    decide

/-! ## Idempotence of analysis (C6) -/

/-- The observable identity of an issue as the claim states it: rule, locus
and metric values — `id` and `detectedAt` excluded. -/
def issueKey (i : Issue) : String × String × Option String × List (String × ℚ) :=
  (i.ruleId, i.pageUrl, i.elementSelector, i.metrics)

/-- C6: two `analyzeAllRules` runs over the same store and configuration
yield the same flagged `(ruleId, pageUrl, elementSelector)` tuples with
identical `metrics`, whatever `Date.now()` and `Math.random()` return on
each run — the nondeterministic sources feed only the issue `id` strings and
`detectedAt` stamps, which `issueKey` discards. -/
theorem analyzeAllRules_deterministic (rules : RulesState) (st : List Event)
    (now1 seed1 now2 seed2 : Nat) :
    (analyzeAllRules rules st now1 seed1).map issueKey =
      (analyzeAllRules rules st now2 seed2).map issueKey := by
  simp only [analyzeAllRules, analyzeLowClickRate, analyzeLowScrollDepth, analyzeRageClicks,
    analyzeDeadClicks, analyzeHighExitRate, List.map_append, List.map_map]
  rfl

/-! ## Threshold updates (C7) -/

theorem lookupA_setA_self {α : Type} (l : List (String × α)) (k : String) (v : α) :
    lookupA (setA l k v) k = (lookupA l k).map (fun _ => v) := by
  induction l with
  | nil => rfl
  | cons p t ih =>
    by_cases h : p.1 = k
    · have hb : (p.1 == k) = true := beq_iff_eq.mpr h
      simp [setA, lookupA, hb]
    · have hb : (p.1 == k) = false := beq_eq_false_iff_ne.mpr h
      simp only [setA, List.map_cons, hb, Bool.false_eq_true, if_false]
      simp only [lookupA, hb, Bool.false_eq_true, if_false]
      simpa [setA] using ih

theorem lookupA_setA_ne {α : Type} (l : List (String × α)) (k k' : String) (v : α)
    (h : k' ≠ k) : lookupA (setA l k v) k' = lookupA l k' := by
  induction l with
  | nil => rfl
  | cons p t ih =>
    by_cases hp : p.1 = k
    · have hb : (p.1 == k) = true := beq_iff_eq.mpr hp
      have hb' : (p.1 == k') = false := beq_eq_false_iff_ne.mpr (by rw [hp]; exact fun e => h e.symm)
      simp only [setA, List.map_cons, hb, if_true]
      simp only [lookupA, hb', Bool.false_eq_true, if_false]
      simpa [setA] using ih
    · have hb : (p.1 == k) = false := beq_eq_false_iff_ne.mpr hp
      simp only [setA, List.map_cons, hb, Bool.false_eq_true, if_false]
      simp only [lookupA]
      by_cases hq : p.1 = k'
      · simp [beq_iff_eq.mpr hq]
      · have hb' : (p.1 == k') = false := beq_eq_false_iff_ne.mpr hq
        simp only [hb', Bool.false_eq_true, if_false]
        simpa [setA] using ih

/-- C7: `updateRuleThreshold(ruleId, key, value)` returns `true` exactly
when `ruleId` names a known rule whose `thresholds` object has the key; on
`false` the rule state is completely unchanged (so subsequent detection on
the same dataset is unaffected); on `true` the named threshold becomes
`value` and every other `(rule, key)` threshold is untouched — subsequent
detector runs read their thresholds from the updated state, hence use the
new value. -/
theorem updateRuleThreshold_spec (rules : RulesState) (ruleId key : String) (v : TVal) :
    ((updateRuleThreshold rules ruleId key v).2 = true ↔
      (getThreshold rules ruleId key).isSome = true) ∧
    ((updateRuleThreshold rules ruleId key v).2 = false →
      (updateRuleThreshold rules ruleId key v).1 = rules) ∧
    ((updateRuleThreshold rules ruleId key v).2 = true →
      getThreshold (updateRuleThreshold rules ruleId key v).1 ruleId key = some v) ∧
    (∀ r k : String, r ≠ ruleId ∨ k ≠ key →
      getThreshold (updateRuleThreshold rules ruleId key v).1 r k
        = getThreshold rules r k) := by
  cases hrule : lookupA rules ruleId with
  | none =>
    refine ⟨?_, ?_, ?_, ?_⟩
    · simp [updateRuleThreshold, hrule, getThreshold]
    · intro _
      simp [updateRuleThreshold, hrule]
    · intro hcontra
      simp [updateRuleThreshold, hrule] at hcontra
    · intro r k _
      simp [updateRuleThreshold, hrule]
  | some ths =>
    cases hkey : lookupA ths key with
    | none =>
      refine ⟨?_, ?_, ?_, ?_⟩
      · simp [updateRuleThreshold, hrule, hkey, getThreshold]
      · intro _
        simp [updateRuleThreshold, hrule, hkey]
      · intro hcontra
        simp [updateRuleThreshold, hrule, hkey] at hcontra
      · intro r k _
        simp [updateRuleThreshold, hrule, hkey]
    | some w =>
      have hupd : updateRuleThreshold rules ruleId key v
          = (setA rules ruleId (setA ths key v), true) := by
        simp [updateRuleThreshold, hrule, hkey]
      refine ⟨?_, ?_, ?_, ?_⟩
      · simp [hupd, getThreshold, hrule, hkey]
      · intro hcontra
        rw [hupd] at hcontra
        cases hcontra
      · intro _
        rw [hupd]
        show getThreshold (setA rules ruleId (setA ths key v)) ruleId key = some v
        rw [getThreshold, lookupA_setA_self, hrule]
        show lookupA (setA ths key v) key = some v
        rw [lookupA_setA_self, hkey]
        rfl
      · intro r k hrk
        rw [hupd]
        show getThreshold (setA rules ruleId (setA ths key v)) r k = getThreshold rules r k
        rcases hrk with hr | hk
        · rw [getThreshold, getThreshold, lookupA_setA_ne _ _ _ _ hr]
        · by_cases hr : r = ruleId
          · subst hr
            rw [getThreshold, getThreshold, lookupA_setA_self, hrule]
            show lookupA (setA ths key v) k = lookupA ths k
            exact lookupA_setA_ne _ _ _ _ hk
          · rw [getThreshold, getThreshold, lookupA_setA_ne _ _ _ _ hr]

theorem updateRuleThreshold_spec_witness :
    (updateRuleThreshold defaultRules ("lowClickRate") ("minClickRate") (TVal.num (1 / 10))).2
      = true ∧
    getThreshold
      (updateRuleThreshold defaultRules ("lowClickRate") ("minClickRate") (TVal.num (1 / 10))).1
      ("lowClickRate") ("minClickRate") = some (TVal.num (1 / 10)) ∧
    getThreshold
      (updateRuleThreshold defaultRules ("lowClickRate") ("minClickRate") (TVal.num (1 / 10))).1
      ("rageClicks") ("timeWindow") = getThreshold defaultRules ("rageClicks") ("timeWindow") ∧
    (updateRuleThreshold defaultRules ("bogusRule") ("x") (TVal.num 1)).2 = false ∧
    (updateRuleThreshold defaultRules ("bogusRule") ("x") (TVal.num 1)).1 = defaultRules := by
  have h1 := updateRuleThreshold_spec defaultRules ("lowClickRate") ("minClickRate")
    (TVal.num (1 / 10))
  have h2 := updateRuleThreshold_spec defaultRules ("bogusRule") ("x") (TVal.num 1)
  have e1 : (getThreshold defaultRules ("lowClickRate") ("minClickRate")).isSome = true := by
    rfl
  have ht := h1.1.mpr e1
  have e2 : (updateRuleThreshold defaultRules ("bogusRule") ("x") (TVal.num 1)).2 = false := by
    rfl
  exact ⟨ht, h1.2.2.1 ht,
    h1.2.2.2 ("rageClicks") ("timeWindow") (Or.inl (by decide)), e2, h2.2.1 e2⟩

/-- C8: the metrics aggregation is all-or-nothing — if any one of the five
constituent store reads fails, `getAggregatedMetrics` yields no snapshot
(the promise rejects before the success counter can reach five, so
`resolve(results)` never runs and the caller never sees a partial
snapshot). -/
theorem getAggregatedMetrics_all_or_nothing {α : Type}
    (r : MetricsQueries (Except String α)) :
    (r.totalEvents.isOk = false ∨ r.totalSessions.isOk = false ∨
     r.topClickedElements.isOk = false ∨ r.averageScrollDepth.isOk = false ∨
     r.recentActivity.isOk = false) →
    ∀ m : MetricsQueries α, getAggregatedMetrics r ≠ Except.ok m := by
  obtain ⟨te, ts, tc, ad, ra⟩ := r
  intro hfail m hm
  cases te <;> cases ts <;> cases tc <;> cases ad <;> cases ra <;>
    simp_all [getAggregatedMetrics, Except.isOk, Except.toBool, Bind.bind, Except.bind,
      Pure.pure, Except.pure]

/-- Read outcomes with the first constituent query failing. -/
def mqFail : MetricsQueries (Except String Nat) :=
  ⟨Except.error "disk I O failure", Except.ok 0, Except.ok 0, Except.ok 0, Except.ok 0⟩

theorem getAggregatedMetrics_all_or_nothing_witness :
    getAggregatedMetrics mqFail ≠ Except.ok ⟨0, 0, 0, 0, 0⟩ :=
  getAggregatedMetrics_all_or_nothing mqFail (Or.inl rfl) ⟨0, 0, 0, 0, 0⟩

/-! ## Suggestions attached to issues (C9) -/

theorem length_mapIdxFrom {α β : Type} (f : Nat → α → β) :
    ∀ (i : Nat) (l : List α), (mapIdxFrom f i l).length = l.length := by
  intro i l
  induction l generalizing i with
  | nil => rfl
  | cons a t ih =>
    simp only [mapIdxFrom, List.length_cons, ih]

/-- C9: every issue produced by `analyzeAllRules` carries as suggestions
exactly the first three entries of the static catalog for its rule id, in
catalog order, with priorities `high, medium, low` assigned solely by
position; and for every rule id whatsoever the suggestion list never
exceeds three entries, regardless of the catalog's size. -/
theorem issues_suggestions_spec (rules : RulesState) (st : List Event) (now seed : Nat) :
    (∀ i ∈ analyzeAllRules rules st now seed,
      i.suggestions = getSuggestionsForRule i.ruleId ∧
      i.suggestions = mapIdxFrom (mkSuggestion i.ruleId) 0 ((suggestionsCatalog i.ruleId).take 3) ∧
      i.suggestions.length ≤ 3) ∧
    (∀ ruleId : String, (getSuggestionsForRule ruleId).length ≤ 3) := by
  have hlen : ∀ ruleId : String, (getSuggestionsForRule ruleId).length ≤ 3 := by
    intro ruleId
    rw [getSuggestionsForRule, length_mapIdxFrom]
    exact (List.length_take_le 3 _)
  refine ⟨?_, hlen⟩
  intro i hi
  rcases List.mem_map.mp hi with ⟨j, _, hji⟩
  subst hji
  exact ⟨rfl, rfl, hlen _⟩

/-- A rule state obtained by lowering the dead-clicks threshold to 2, and a
store of two clicks on `div.pic` — exactly one issue is produced. -/
def wRules : RulesState :=
  (updateRuleThreshold defaultRules ("deadClicks") ("minClicksOnNonInteractive")
    (TVal.num 2)).1

/-- The single issue `analyzeAllRules wRules dcW 7 9` yields. -/
def wIssue : Issue :=
  { id := issueId ("dead-clicks") 7 9,
    ruleId := "deadClicks", ruleName := "Dead Clicks", severity := "medium",
    elementSelector := some "div.pic", pageUrl := "/p",
    metrics := [("clicks", ((2 : Nat) : ℚ)), ("uniqueSessions", ((2 : Nat) : ℚ))],
    suggestions := getSuggestionsForRule ("deadClicks"), detectedAt := 7 }

theorem issues_suggestions_spec_witness :
    wIssue.suggestions = getSuggestionsForRule wIssue.ruleId ∧
    wIssue.suggestions.length ≤ 3 := by
  have hA : getNumQ wRules ("lowClickRate") ("minClickRate") 0 = 5 / 100 := rfl
  have hB : getNumQ wRules ("lowClickRate") ("minPageViews") 0 = 10 := rfl
  have hC : getNumQ wRules ("lowScrollDepth") ("maxScrollDepth") 0 = 30 := rfl
  have hD : getNumQ wRules ("lowScrollDepth") ("minSessions") 0 = 5 := rfl
  have hE : getNumQ wRules ("rageClicks") ("clicksInWindow") 0 = 3 := rfl
  have hF : getNumQ wRules ("rageClicks") ("timeWindow") 0 = 2000 := rfl
  have hG : getNumQ wRules ("rageClicks") ("minOccurrences") 0 = 2 := rfl
  have hH : getNumQ wRules ("deadClicks") ("minClicksOnNonInteractive") 0 = 2 := rfl
  have hI : getStrs wRules ("deadClicks") ("nonInteractiveSelectors") []
      = nonInteractiveSelectors := rfl
  have hJ : getNumQ wRules ("highExitRate") ("maxInteractionTime") 0 = 10000 := rfl
  have hK : getNumQ wRules ("highExitRate") ("minSessions") 0 = 5 := rfl
  have hps : pageSessions dcW ("/p") = 2 := by decide
  have hus : distinctSessions (clickGroup dcW ("/p") ("div.pic")) = 2 := by decide
  have hkeys1 : ((dcW.filter isClickNonEmptySel).map
      (fun e => (e.elementSelector.getD "", e.pageUrl))).dedup = [("div.pic", "/p")] := by
    decide
  have r1 : lowClickRateRows dcW (5 / 100) 10 = [] := by
    simp only [lowClickRateRows]
    rw [hkeys1]
    norm_num [List.filterMap_cons, List.filterMap_nil, hps, hus]
  have hkeys2 : ((dcW.filter (fun e => e.eventType == "scroll" && e.scrollDepth.isSome)).map
      (fun e => e.pageUrl)).dedup = [] := by decide
  have r2 : lowScrollDepthRows dcW 30 5 = [] := by
    simp only [lowScrollDepthRows]
    rw [hkeys2]
    rfl
  have hcw1 : clicksInWin dcW 2000 (evClick ("s1") ("/p") ("div.pic") 0) = 1 := by
    norm_num [clicksInWin, winMatch, dcW, evClick, List.filter]
    all_goals decide
  have hcw2 : clicksInWin dcW 2000 (evClick ("s2") ("/p") ("div.pic") 1) = 1 := by
    norm_num [clicksInWin, winMatch, dcW, evClick, List.filter]
  have HuW : ((dcW.filter isClickSel).map rageKey).Nodup := by decide
  have rrap : rapidSequences dcW 2000 3 = [] := by
    rw [List.eq_nil_iff_forall_not_mem]
    intro r hr
    rcases (mem_rapidSequences dcW 2000 3 HuW r).mp hr with ⟨e, he, _, hK, _⟩
    have he2 : e = evClick ("s1") ("/p") ("div.pic") 0 ∨
        e = evClick ("s2") ("/p") ("div.pic") 1 := by
      simpa [dcW] using he
    rcases he2 with rfl | rfl
    · rw [hcw1] at hK
      norm_num at hK
    · rw [hcw2] at hK
      norm_num at hK
  have r3 : rageClicksRows dcW 2000 3 2 = [] := by
    simp [rageClicksRows, rageClickSessions, rrap]
  have hkeys4 : ((dcW.filter (fun e => isClickSel e &&
      matchesNonInteractive nonInteractiveSelectors (e.elementSelector.getD ""))).map
      (fun e => (e.elementSelector.getD "", e.pageUrl))).dedup = [("div.pic", "/p")] := by
    decide
  have hdlen : (deadClickGroup dcW nonInteractiveSelectors ("/p") ("div.pic")).length = 2 := by
    decide
  have hdus : distinctSessions (deadClickGroup dcW nonInteractiveSelectors ("/p") ("div.pic"))
      = 2 := by decide
  have r4 : deadClicksRows dcW nonInteractiveSelectors 2
      = [⟨"div.pic", "/p", 2, 2⟩] := by
    simp only [deadClicksRows]
    rw [hkeys4]
    norm_num [List.filterMap_cons, List.filterMap_nil, hdlen, hdus]
  have hpk : ((sessionDurationKeys dcW).map (fun k => k.1)).dedup = ["/p"] := by decide
  have hflen : ((sessionDurationKeys dcW).filter (fun k => k.1 == "/p")).length = 2 := by
    decide
  have r5 : highExitRateRows dcW 10000 5 = [] := by
    simp only [highExitRateRows]
    rw [hpk]
    norm_num [List.filterMap_cons, List.filterMap_nil, hflen]
  have heval : analyzeAllRules wRules dcW 7 9 = [wIssue] := by
    simp only [analyzeAllRules, analyzeLowClickRate, analyzeLowScrollDepth, analyzeRageClicks,
      analyzeDeadClicks, analyzeHighExitRate, hA, hB, hC, hD, hE, hF, hG, hH, hI, hJ, hK,
      r1, r2, r3, r4, r5, List.map_nil, List.map_cons, List.nil_append, List.append_nil,
      List.append_assoc, wIssue, issueId]
  have hmem : wIssue ∈ analyzeAllRules wRules dcW 7 9 := by
    rw [heval]
    exact List.mem_cons_self _ _
  have h := (issues_suggestions_spec wRules dcW 7 9).1 wIssue hmem
  exact ⟨h.1, h.2.2⟩
